import Mathlib

/-!
# Verification of the SSRGAN video comparison pipeline (`tester.py`, class `Video`)

This file shallowly embeds the streaming comparison pipeline of
`tester.py` (`Video.__init__` and `Video.run`): the derived output
geometry, the per-frame compositing algorithm (pad / five-crop /
concatenate / resize), the read–transform–write loop with its optional
interactive cancellation poll, and the output-file naming performed at
initialization.

Modelling notes:
* A frame is a pixel grid given by its height, width and a total pixel
  function (channels are collapsed to one value per position; every
  operation the pipeline performs treats the channel axis uniformly).
* Machine integers are `Nat`/`Int`; the Python floor division on the
  non-negative quantities involved coincides with `Int` division.
  The float expression `int(top_w / bottom_w * bottom_h)` is modelled
  as the exact integer `top_w * bottom_h / bottom_w`.
* Interpolated resizing (`transforms.Resize`) is modelled as a
  deterministic sampling with the requested target shape; only the
  output dimensions and determinism of the kernel are relied on.
* Fallible library calls (`np.concatenate` with mismatched shapes,
  `torchvision.transforms.FiveCrop` with an oversized or degenerate
  tile size) are modelled with `Option`, `none` standing for the raised
  exception.
-/

namespace SSRGAN

/-- A video frame: a dense rectangular pixel buffer. `pix i j` is the
value at row `i`, column `j`; values outside the `height × width`
rectangle are never observed by the pipeline. -/
structure Frame where
  height : Nat
  width : Nat
  pix : Nat → Nat → Nat

/-- Padding, `torchvision.transforms.Pad(padding=(l, t, r, b))`: grow the frame by
`l`/`t`/`r`/`b` zero pixels on the left/top/right/bottom. -/
def Frame.pad (f : Frame) (l t r b : Nat) : Frame where
  height := f.height + t + b
  width := f.width + l + r
  pix := fun i j =>
    if t ≤ i ∧ i < t + f.height ∧ l ≤ j ∧ j < l + f.width then
      f.pix (i - t) (j - l)
    else 0

/-- Cropping, `PIL.Image.crop`: the `h × w` sub-rectangle whose top-left corner is
at row `top`, column `left`. -/
def Frame.crop (f : Frame) (top left h w : Nat) : Frame where
  height := h
  width := w
  pix := fun i j => f.pix (top + i) (left + j)

/-- Resizing, `transforms.Resize((h, w))`: resize to exactly `h × w`.  The
interpolation kernel is abstracted as a deterministic sampling; the
properties of the pipeline depend only on the target shape and determinism. -/
def Frame.resize (f : Frame) (h w : Nat) : Frame where
  height := h
  width := w
  pix := fun i j => f.pix (i * f.height / h) (j * f.width / w)

/-- Horizontal concatenation, `np.concatenate((a, b), axis=1)`: concatenation, `a` on
the left.  Raises (`none`) when the heights differ. -/
def hconcat (a b : Frame) : Option Frame :=
  if a.height = b.height then
    some { height := a.height
           width := a.width + b.width
           pix := fun i j => if j < a.width then a.pix i j else b.pix i (j - a.width) }
  else none

/-- Vertical concatenation, `np.concatenate((a, b))` (axis 0): concatenation, `a` on
top.  Raises (`none`) when the widths differ. -/
def vconcat (a b : Frame) : Option Frame :=
  if a.width = b.width then
    some { height := a.height + b.height
           width := a.width
           pix := fun i j => if i < a.height then a.pix i j else b.pix (i - a.height) j }
  else none

/-- Concatenation `np.concatenate(frames, axis=1)` on a list of frames (left to
right).  Raises (`none`) on an empty list or mismatched heights. -/
def hconcatList : List Frame → Option Frame
  | [] => none
  | f :: fs => fs.foldlM hconcat f

/-- Rounding `int(round(d / 2.0))` for a natural `d` (Python 3 rounds halves to
even). -/
def halfRound (d : Nat) : Nat :=
  if d % 2 = 0 then d / 2
  else if (d / 2) % 2 = 0 then d / 2 else d / 2 + 1

/-- Five-crop, `torchvision.transforms.FiveCrop(size=c)`: the five `c × c` tiles at
the four corners and the centre, in the torchvision order
`[top-left, top-right, bottom-left, bottom-right, center]`; the centre
tile offsets use round-half-to-even as `center_crop` does.  The call
raises (`none`) when the tile exceeds the frame (the torchvision check)
and for a negative tile size (an inverted PIL crop box); tile size zero
succeeds, producing valid zero-area crops, exactly as PIL does. -/
def fiveCrop (f : Frame) (c : Int) : Option (List Frame) :=
  if 0 ≤ c ∧ c ≤ (f.width : Int) ∧ c ≤ (f.height : Int) then
    let cN := c.toNat
    some [f.crop 0 0 cN cN,
          f.crop 0 (f.width - cN) cN cN,
          f.crop (f.height - cN) 0 cN cN,
          f.crop (f.height - cN) (f.width - cN) cN cN,
          f.crop (halfRound (f.height - cN)) (halfRound (f.width - cN)) cN cN]
  else none

/-! ## Derived output geometry (`Video.__init__`, lines 94–96) -/

/-- Source line `sr_size = (size[0] * args.upscale_factor, size[1] * args.upscale_factor)`
where `size = (frameWidth, frameHeight)`. -/
def sr_size (size : Nat × Nat) (upscale_factor : Nat) : Nat × Nat :=
  (size.1 * upscale_factor, size.2 * upscale_factor)

/-- Source line `pare_size = (sr_size[0] * 2 + 10, sr_size[1] + 10 + sr_size[0] // 5 - 9)`,
Python integer arithmetic. -/
def pare_size (sr : Nat × Nat) : Int × Int :=
  ((sr.1 : Int) * 2 + 10, (sr.2 : Int) + 10 + (sr.1 : Int) / 5 - 9)

/-- The crop tile side used by the compositor for a frame of width `w`:
`w // 5 - 9` (Python integers; may be non-positive). -/
def cropTile (w : Nat) : Int :=
  (w : Int) / 5 - 9

/-! ## Initialization (`Video.__init__`, lines 89–104) -/

/-- The stream metadata `cv2.VideoCapture` reports for the opened file.
An undecodable file yields zeros, never an exception. -/
structure Capture where
  fps : ℚ
  frame_count : Nat
  frame_width : Nat
  frame_height : Nat

/-- The argparse namespace fields `Video.__init__` reads.  The
CLI parsers of the repository define `upscale_factor` (`--upscale-factor`)
but never a `scale_factor` attribute, hence the latter is optional:
reading an absent attribute raises `AttributeError`. -/
structure Args where
  file : String
  upscale_factor : Nat
  scale_factor : Option Nat
  view : Bool

/-- Basename, `os.path.basename`, for the POSIX paths the repository uses: the
suffix after the last `/`. -/
def baseName (s : String) : String :=
  String.mk ((s.data.reverse.takeWhile (fun ch => ch ≠ '/')).reverse)

/-- The only exception `Video.__init__` can raise in this embedding:
an attribute access on a field the argparse namespace does not have. -/
inductive InitError
  | attributeError
deriving DecidableEq

/-- The state `Video.__init__` stores on the object. -/
structure VideoState where
  fps : ℚ
  total_frames : Nat
  size : Nat × Nat
  srSize : Nat × Nat
  pareSize : Int × Int
  srName : String
  compareName : String
  fourcc : String
  view : Bool

/-- Initialization, `Video.__init__`: reads the capture metadata, derives the output
geometry, and builds the two writer file names
`f"sr_{args.scale_factor}x_{basename}"` /
`f"compare_{args.scale_factor}x_{basename}"` with fourcc `"MPEG"` and
the source frame rate.  No validation of the geometry or of the capture
is performed; the only possible failure is the `args.scale_factor`
attribute access. -/
def videoInit (args : Args) (cap : Capture) : Except InitError VideoState :=
  let size := (cap.frame_width, cap.frame_height)
  let sr := sr_size size args.upscale_factor
  let pare := pare_size sr
  match args.scale_factor with
  | none => .error .attributeError
  | some sf =>
      .ok { fps := cap.fps
            total_frames := cap.frame_count
            size := size
            srSize := sr
            pareSize := pare
            srName := "sr_" ++ toString sf ++ "x_" ++ baseName args.file
            compareName := "compare_" ++ toString sf ++ "x_" ++ baseName args.file
            fourcc := "MPEG"
            view := args.view }

/-! ## Per-frame compositing (`Video.run`, lines 160–184) -/

/-- The compositing of one comparison frame, translated line by line
from `Video.run` lines 160–184.  `srW`/`srH` are `sr_size`; `raw` is the
source frame, `sr` the transformed frame as written to the sr sink.
`none` models an exception escaping the loop body. -/
def compositeFrame (srW srH : Nat) (raw sr : Frame) : Option Frame := do
  -- crop_sr_imgs = transforms.FiveCrop(size=sr.width // 5 - 9)(sr)
  let crop_sr_imgs ← fiveCrop sr (cropTile sr.width)
  -- crop_sr_imgs = [... Pad(padding=(10, 5, 0, 0))(img) ...]
  let crop_sr_imgs := crop_sr_imgs.map (fun img => img.pad 10 5 0 0)
  -- sr = transforms.Pad(padding=(5, 0, 0, 5))(sr)
  let srPadded := sr.pad 5 0 0 5
  -- compare_img = transforms.Resize((sr_size[1], sr_size[0]))(raw_frame)
  let compare_img := raw.resize srH srW
  -- crop_compare_imgs = transforms.FiveCrop(size=compare_img.width // 5 - 9)(compare_img)
  let crop_compare_imgs ← fiveCrop compare_img (cropTile compare_img.width)
  -- crop_compare_imgs = [... Pad(padding=(0, 5, 10, 0))(img) ...]
  let crop_compare_imgs := crop_compare_imgs.map (fun img => img.pad 0 5 10 0)
  -- compare_img = transforms.Pad(padding=(0, 0, 5, 5))(compare_img)
  let comparePadded := compare_img.pad 0 0 5 5
  -- top_img = np.concatenate((compare_img, sr), axis=1)
  let top_img ← hconcat comparePadded srPadded
  -- bottom_img = np.concatenate(crop_compare_imgs + crop_sr_imgs, axis=1)
  let bottom_img ← hconcatList (crop_compare_imgs ++ crop_sr_imgs)
  -- bottom_img_height = int(top_img.shape[1] / bottom_img.shape[1] * bottom_img.shape[0])
  let bottom_img_height := top_img.width * bottom_img.height / bottom_img.width
  -- bottom_img = transforms.Resize((bottom_img_height, bottom_img_width))(bottom_img)
  let bottom_resized := bottom_img.resize bottom_img_height top_img.width
  -- final_image = np.concatenate((top_img, bottom_img))
  vconcat top_img bottom_resized

/-! ## The processing loop (`Video.run`, lines 142–196) -/

/-- Observable side effects of `Video.run` on the capture and the two
writers.  The release/close methods exist on these objects but
`Video.run` never invokes them, so the corresponding events record
whether a release ever happens. -/
inductive Ev
  | read
  | writeSr
  | writeCompare
  | poll
  | releaseCapture
  | releaseSrWriter
  | releaseCompareWriter
deriving DecidableEq

/-- Terminal outcome of a run: the loop finished (`done`), an exception
escaped (`failed`), or the interactive poll observed `q` (`cancelled`). -/
inductive Outcome
  | done
  | failed
  | cancelled
deriving DecidableEq

/-- What a run produced: the frames appended to each sink in order, the
event trace, and the terminal outcome. -/
structure RunResult where
  srWrites : List Frame
  compareWrites : List Frame
  trace : List Ev
  outcome : Outcome

/-- Configuration of one `Video.run` call: the derived geometry, the
model as a frame transform, the interactive flag, the keyboard as a
poll oracle (`cancelAt k` is whether the poll after the `k`-th completed
frame reads `q`), the frames of the source and its reported frame count.
`fps` and the writer names ride along but do not influence the loop. -/
structure RunCfg where
  srW : Nat
  srH : Nat
  transform : Frame → Frame
  view : Bool
  cancelAt : Nat → Bool
  frames : List Frame
  totalFrames : Nat
  fps : ℚ
  srName : String
  compareName : String

/-- The body of `for _ in progress_bar` in `Video.run`.  `fuel` is the
number of remaining `range(total_frames)` iterations, `remaining` the
frames the capture has not yet produced (a failed read makes every
later iteration a no-op, which the `[]` case collapses), and `done` the
number of frames fully written so far.  Per successful iteration: write
the transformed frame, composite (an exception here aborts the run),
write the comparison frame, optionally poll for cancellation, then read
the next frame. -/
def runLoop (c : RunCfg) : Nat → List Frame → Nat → RunResult
  | 0, _, _ => ⟨[], [], [], .done⟩
  | _ + 1, [], _ => ⟨[], [], [], .done⟩
  | fuel + 1, raw :: rest, done =>
      let sr := c.transform raw
      match compositeFrame c.srW c.srH raw sr with
      | none => ⟨[sr], [], [.writeSr], .failed⟩
      | some cmp =>
          if c.view then
            if c.cancelAt (done + 1) then
              ⟨[sr], [cmp], [.writeSr, .writeCompare, .poll], .cancelled⟩
            else
              let r := runLoop c fuel rest (done + 1)
              ⟨sr :: r.srWrites, cmp :: r.compareWrites,
               .writeSr :: .writeCompare :: .poll :: .read :: r.trace, r.outcome⟩
          else
            let r := runLoop c fuel rest (done + 1)
            ⟨sr :: r.srWrites, cmp :: r.compareWrites,
             .writeSr :: .writeCompare :: .read :: r.trace, r.outcome⟩

/-- Running, `Video.run`: one read before the loop, then `total_frames`
iterations of the loop body. -/
def run (c : RunCfg) : RunResult :=
  let r := runLoop c c.totalFrames c.frames 0
  { r with trace := .read :: r.trace }

/-- Abbreviation: the comparison frame the loop body builds for source
frame `raw` under configuration `c`. -/
def compositeOf (c : RunCfg) (raw : Frame) : Option Frame :=
  compositeFrame c.srW c.srH raw (c.transform raw)

/-! ## The compositing algorithm as the specification words it

`compositeClaim` renders the description the specification gives of the
compositor literally: the reference frame padded by margin `(5,0,0,5)`
and the transformed frame by `(10,5,0,0)` for the top strip; the five
detail tiles extracted from the *padded* frames, reference crops
right-padded by 10 and transformed crops left-padded by 10, reference
tiles first; the remaining rescale-and-stack steps as in the code.
`compositeDescribed` is the corrected description: the transformed
frame is padded `(5,0,0,5)` and the reference frame `(0,0,5,5)`, and
the five tiles are taken from the frames *before* those pads, the
transformed tiles padded `(10,5,0,0)` and the reference tiles
`(0,5,10,0)`. -/

/-- The compositor as the sentences of the specification describe it
(claim wording, for comparison against `compositeFrame`). -/
def compositeClaim (srW srH : Nat) (raw sr : Frame) : Option Frame := do
  let ref := raw.resize srH srW
  let refPadded := ref.pad 5 0 0 5
  let srPadded := sr.pad 10 5 0 0
  let top ← hconcat refPadded srPadded
  let refTiles ← fiveCrop refPadded (cropTile srW)
  let srTiles ← fiveCrop srPadded (cropTile srW)
  let refTiles := refTiles.map (fun img => img.pad 0 0 10 0)
  let srTiles := srTiles.map (fun img => img.pad 10 0 0 0)
  let bottom ← hconcatList (refTiles ++ srTiles)
  let bh := top.width * bottom.height / bottom.width
  vconcat top (bottom.resize bh top.width)

/-- The compositor as the corrected description words it; proved below
to agree with `compositeFrame` on every input. -/
def compositeDescribed (srW srH : Nat) (raw sr : Frame) : Option Frame := do
  let ref := raw.resize srH srW
  let srTiles ← fiveCrop sr (cropTile sr.width)
  let refTiles ← fiveCrop ref (cropTile ref.width)
  let srTiles := srTiles.map (fun img => img.pad 10 5 0 0)
  let refTiles := refTiles.map (fun img => img.pad 0 5 10 0)
  let top ← hconcat (ref.pad 0 0 5 5) (sr.pad 5 0 0 5)
  let bottom ← hconcatList (refTiles ++ srTiles)
  let bh := top.width * bottom.height / bottom.width
  vconcat top (bottom.resize bh top.width)

/-! ## Concrete fixtures used by witnesses and counterexamples -/

/-- A 50 × 50 source frame with distinct in-range pixel values. -/
def frame50 : Frame :=
  { height := 50, width := 50, pix := fun i j => i * 100 + j + 1 }

/-- A 50 × 50 frame standing for the output of the transform. -/
def sr50 : Frame :=
  { height := 50, width := 50, pix := fun _ _ => 7 }

/-- A configuration whose geometry and transform are consistent
(`srSize = (50, 50)`, `cropTileSize = 1`), one source frame, no
interactive view. -/
def cfgGood : RunCfg :=
  { srW := 50, srH := 50, transform := fun _ => sr50, view := false
    cancelAt := fun _ => false, frames := [frame50], totalFrames := 1
    fps := 24, srName := "sr_4x_v.mp4", compareName := "compare_4x_v.mp4" }

/-- Variant of `cfgGood` with a different frame rate and different sink names. -/
def cfgGood2 : RunCfg :=
  { srW := 50, srH := 50, transform := fun _ => sr50, view := false
    cancelAt := fun _ => false, frames := [frame50], totalFrames := 1
    fps := 60, srName := "a.mp4", compareName := "b.mp4" }

/-- An interactive two-frame configuration whose poll observes a cancel
right after the first frame is fully written. -/
def cfgView : RunCfg :=
  { srW := 50, srH := 50, transform := fun _ => sr50, view := true
    cancelAt := fun k => k == 1, frames := [frame50, frame50], totalFrames := 2
    fps := 24, srName := "sr_4x_v.mp4", compareName := "compare_4x_v.mp4" }

/-- A configuration with degenerate geometry: `srSize = (40, 40)`, so
`cropTileSize = 40 / 5 - 9 = -1 ≤ 0`. -/
def cfgSmall : RunCfg :=
  { srW := 40, srH := 40
    transform := fun _ => { height := 40, width := 40, pix := fun _ _ => 0 }
    view := false, cancelAt := fun _ => false, frames := [frame50]
    totalFrames := 1, fps := 24, srName := "sr_4x_v.mp4"
    compareName := "compare_4x_v.mp4" }

/-- A configuration whose source reported zero frames. -/
def cfgEmpty : RunCfg :=
  { srW := 40, srH := 40
    transform := fun _ => { height := 40, width := 40, pix := fun _ _ => 0 }
    view := false, cancelAt := fun _ => false, frames := []
    totalFrames := 0, fps := 24, srName := "sr_4x_v.mp4"
    compareName := "compare_4x_v.mp4" }

/-- A 48 × 48 frame standing for the output of the transform on a
12-pixel source at upscale factor 4 (`srSize = (48, 48)`). -/
def frame48 : Frame :=
  { height := 48, width := 48, pix := fun i j => i + j }

/-- A configuration in the zero-tile band: `srSize = (48, 48)`, so
`cropTileSize = 48 / 5 - 9 = 0`; one source frame, no view. -/
def cfgZero : RunCfg :=
  { srW := 48, srH := 48, transform := fun _ => frame48, view := false
    cancelAt := fun _ => false, frames := [frame50], totalFrames := 1
    fps := 24, srName := "sr_4x_v.mp4", compareName := "compare_4x_v.mp4" }

/-- Argparse namespace as the own parsers of the repository would produce it
(`--upscale-factor 4`; no `scale_factor` attribute exists). -/
def argsRepo : Args :=
  { file := "data/lr.mp4", upscale_factor := 4, scale_factor := none, view := false }

/-- Argparse namespace with a `scale_factor` attribute differing from
`upscale_factor`. -/
def argsMismatch : Args :=
  { file := "data/lr.mp4", upscale_factor := 4, scale_factor := some 2, view := false }

/-- Argparse namespace with `scale_factor = upscale_factor = 4`. -/
def args4 : Args :=
  { file := "data/lr.mp4", upscale_factor := 4, scale_factor := some 4, view := true }

/-- A 64 × 64, 10-frame, 30 fps capture. -/
def cap64 : Capture :=
  { fps := 30, frame_count := 10, frame_width := 64, frame_height := 64 }

/-- A 10 × 10 capture: with upscale factor 4 it yields
`srSize = (40, 40)` and a non-positive `cropTileSize`. -/
def cap10 : Capture :=
  { fps := 30, frame_count := 1, frame_width := 10, frame_height := 10 }

/-- The state `videoInit args4 cap64` produces. -/
def st64 : VideoState :=
  { fps := 30, total_frames := 10, size := (64, 64), srSize := (256, 256)
    pareSize := (522, 308), srName := "sr_4x_lr.mp4"
    compareName := "compare_4x_lr.mp4", fourcc := "MPEG", view := true }

/-! ## Dimension lemmas for the frame operations -/

@[simp] theorem pad_height (f : Frame) (l t r b : Nat) :
    (f.pad l t r b).height = f.height + t + b := rfl

@[simp] theorem pad_width (f : Frame) (l t r b : Nat) :
    (f.pad l t r b).width = f.width + l + r := rfl

@[simp] theorem crop_height (f : Frame) (top left h w : Nat) :
    (f.crop top left h w).height = h := rfl

@[simp] theorem crop_width (f : Frame) (top left h w : Nat) :
    (f.crop top left h w).width = w := rfl

@[simp] theorem resize_height (f : Frame) (h w : Nat) :
    (f.resize h w).height = h := rfl

@[simp] theorem resize_width (f : Frame) (h w : Nat) :
    (f.resize h w).width = w := rfl

theorem hconcat_eq_some {a b f : Frame} (h : hconcat a b = some f) :
    a.height = b.height ∧ f.height = a.height ∧ f.width = a.width + b.width := by
  unfold hconcat at h
  split at h
  · cases h
    exact ⟨by assumption, rfl, rfl⟩
  · cases h

theorem vconcat_eq_some {a b f : Frame} (h : vconcat a b = some f) :
    a.width = b.width ∧ f.height = a.height + b.height ∧ f.width = a.width := by
  unfold vconcat at h
  split at h
  · cases h
    exact ⟨by assumption, rfl, rfl⟩
  · cases h

theorem fiveCrop_eq_some {f : Frame} {c : Int} {l : List Frame}
    (h : fiveCrop f c = some l) :
    (0 ≤ c ∧ c ≤ (f.width : Int) ∧ c ≤ (f.height : Int)) ∧
      l = [f.crop 0 0 c.toNat c.toNat,
           f.crop 0 (f.width - c.toNat) c.toNat c.toNat,
           f.crop (f.height - c.toNat) 0 c.toNat c.toNat,
           f.crop (f.height - c.toNat) (f.width - c.toNat) c.toNat c.toNat,
           f.crop (halfRound (f.height - c.toNat)) (halfRound (f.width - c.toNat))
             c.toNat c.toNat] := by
  unfold fiveCrop at h
  split at h
  · cases h
    exact ⟨by assumption, rfl⟩
  · cases h

/-- Division `sr_size[0] // 5` over the integers is the natural-number floor
division. -/
theorem cropTile_eq (w : Nat) : cropTile w = ((w / 5 : Nat) : Int) - 9 := by
  unfold cropTile
  omega

/-- C1 arithmetic core: the proportional rescale of the ten-tile bottom
strip to the width of the top strip yields exactly tile height `cN + 5`
again, for `cN = srW / 5 - 9 ≥ 1`. -/
theorem bottom_height_eq (srW : Nat) (hq : 9 ≤ srW / 5) :
    (2 * srW + 10) * ((srW / 5 - 9) + 5) / (10 * ((srW / 5 - 9) + 10)) =
      (srW / 5 - 9) + 5 := by
  obtain ⟨a, ha⟩ : ∃ a, srW / 5 = a + 9 := ⟨srW / 5 - 9, by omega⟩
  have hr : srW % 5 < 5 := Nat.mod_lt _ (by norm_num)
  have hsrW : srW = 5 * (a + 9) + srW % 5 := by
    conv_lhs => rw [← Nat.div_add_mod srW 5, ha]
  rw [ha]
  have h1 : a + 9 - 9 + 5 = a + 5 := by omega
  have h2 : a + 9 - 9 + 10 = a + 10 := by omega
  rw [h1, h2]
  apply Nat.div_eq_of_lt_le
  · have : 10 * (a + 10) ≤ 2 * srW + 10 := by omega
    calc (a + 5) * (10 * (a + 10)) = (10 * (a + 10)) * (a + 5) := by ring
    _ ≤ (2 * srW + 10) * (a + 5) := Nat.mul_le_mul_right _ this
  · have hb : 2 * srW + 10 ≤ 10 * (a + 10) + 8 := by omega
    calc (2 * srW + 10) * (a + 5) ≤ (10 * (a + 10) + 8) * (a + 5) :=
          Nat.mul_le_mul_right _ hb
    _ = (10 * (a + 10)) * (a + 5) + 8 * (a + 5) := by ring
    _ < (10 * (a + 10)) * (a + 5) + (10 * (a + 10)) := by omega
    _ = (a + 5 + 1) * (10 * (a + 10)) := by ring

/-- Every comparison frame the compositor produces for a transformed
frame of width `srW` has exactly the derived `pare_size` dimensions. -/
theorem compositeFrame_some_dims {srW srH : Nat} {raw sr f : Frame}
    (hw : sr.width = srW)
    (h : compositeFrame srW srH raw sr = some f) :
    (f.width : Int) = (pare_size (srW, srH)).1 ∧
      (f.height : Int) = (pare_size (srW, srH)).2 := by
  unfold compositeFrame at h
  simp only [bind, Option.bind_eq_some] at h
  obtain ⟨l₁, h₁, l₂, h₂, top, htop, bottom, hbot, hfin⟩ := h
  rw [hw] at h₁
  obtain ⟨⟨hc1, -, -⟩, hl₁⟩ := fiveCrop_eq_some h₁
  have hcw : (raw.resize srH srW).width = srW := rfl
  rw [hcw] at h₂
  obtain ⟨-, hl₂⟩ := fiveCrop_eq_some h₂
  -- the crop tile side, as a natural number
  set cN := (cropTile srW).toNat with hcN
  have hq : 9 ≤ srW / 5 := by
    rw [cropTile_eq] at hc1
    omega
  have hcNval : cN = srW / 5 - 9 := by
    rw [hcN, cropTile_eq]
    omega
  -- the top strip
  obtain ⟨-, htoph, htopw⟩ := hconcat_eq_some htop
  have htoph' : top.height = srH + 5 := by
    simpa using htoph
  have htopw' : top.width = 2 * srW + 10 := by
    rw [htopw]
    simp [hw]
    omega
  -- the bottom strip: ten (cN+5) × (cN+10) tiles, evaluated outright
  -- (`simp` substitutes the resulting record for `bottom` everywhere)
  subst hl₁ hl₂
  simp only [List.map_cons, List.map_nil, List.cons_append, List.nil_append,
    hconcatList, List.foldlM, hconcat, pad_height, pad_width, crop_height,
    crop_width] at hbot
  norm_num at hbot
  -- the final vertical concatenation
  obtain ⟨-, hfh, hfw⟩ := vconcat_eq_some hfin
  simp only [resize_height] at hfh
  constructor
  · rw [hfw, htopw']
    unfold pare_size
    push_cast
    ring
  · rw [hfh, htoph']
    have hsum : cN + 10 + (cN + 10) + (cN + 10) + (cN + 10) + (cN + 10) + (cN + 10) +
        (cN + 10) + (cN + 10) + (cN + 10) + (cN + 10) = 10 * (cN + 10) := by ring
    have hbh : bottom.height = cN + 5 := by rw [← hbot]
    have hbw : bottom.width = cN + 10 + (cN + 10) + (cN + 10) + (cN + 10) + (cN + 10) +
        (cN + 10) + (cN + 10) + (cN + 10) + (cN + 10) + (cN + 10) := by rw [← hbot]
    rw [hbh, hbw, hsum, htopw', hcNval, bottom_height_eq srW hq]
    unfold pare_size
    omega

/-! ## Run-loop lemmas -/

/-- Every frame the loop appends to the sr sink is the transform of some
source frame. -/
theorem runLoop_srWrites_mem (c : RunCfg) :
    ∀ (fuel : Nat) (frames : List Frame) (done : Nat) (f : Frame),
      f ∈ (runLoop c fuel frames done).srWrites →
        ∃ raw, raw ∈ frames ∧ f = c.transform raw := by
  intro fuel
  induction fuel with
  | zero =>
      intro frames done f hf
      simp [runLoop] at hf
  | succ fuel ih =>
      intro frames done f hf
      cases frames with
      | nil => simp [runLoop] at hf
      | cons raw rest =>
          rw [runLoop] at hf
          rcases hcmp : compositeOf c raw with _ | cmp <;>
            rw [show compositeFrame c.srW c.srH raw (c.transform raw) = compositeOf c raw
                  from rfl, hcmp] at hf
          · simp at hf
            exact ⟨raw, by simp, hf⟩
          · by_cases hview : c.view <;> simp [hview] at hf
            · by_cases hcan : c.cancelAt (done + 1) <;> simp [hcan] at hf
              · exact ⟨raw, by simp, hf⟩
              · rcases hf with hf | hf
                · exact ⟨raw, by simp, hf⟩
                · obtain ⟨raw', hr, he⟩ := ih rest (done + 1) f hf
                  exact ⟨raw', by simp [hr], he⟩
            · rcases hf with hf | hf
              · exact ⟨raw, by simp, hf⟩
              · obtain ⟨raw', hr, he⟩ := ih rest (done + 1) f hf
                exact ⟨raw', by simp [hr], he⟩

/-- Every frame the loop appends to the comparison sink is the
output of the compositor on some source frame. -/
theorem runLoop_compareWrites_mem (c : RunCfg) :
    ∀ (fuel : Nat) (frames : List Frame) (done : Nat) (f : Frame),
      f ∈ (runLoop c fuel frames done).compareWrites →
        ∃ raw, raw ∈ frames ∧ compositeOf c raw = some f := by
  intro fuel
  induction fuel with
  | zero =>
      intro frames done f hf
      simp [runLoop] at hf
  | succ fuel ih =>
      intro frames done f hf
      cases frames with
      | nil => simp [runLoop] at hf
      | cons raw rest =>
          rw [runLoop] at hf
          rcases hcmp : compositeOf c raw with _ | cmp <;>
            rw [show compositeFrame c.srW c.srH raw (c.transform raw) = compositeOf c raw
                  from rfl, hcmp] at hf
          · simp at hf
          · by_cases hview : c.view <;> simp [hview] at hf
            · by_cases hcan : c.cancelAt (done + 1) <;> simp [hcan] at hf
              · exact ⟨raw, by simp, by rw [hcmp, hf]⟩
              · rcases hf with hf | hf
                · exact ⟨raw, by simp, by rw [hcmp, hf]⟩
                · obtain ⟨raw', hr, he⟩ := ih rest (done + 1) f hf
                  exact ⟨raw', by simp [hr], he⟩
            · rcases hf with hf | hf
              · exact ⟨raw, by simp, by rw [hcmp, hf]⟩
              · obtain ⟨raw', hr, he⟩ := ih rest (done + 1) f hf
                exact ⟨raw', by simp [hr], he⟩

/-- When every source frame composites successfully and the poll never
observes a cancel, the loop writes the transform of every frame to the
sr sink and the composite of every frame to the comparison sink, in
source order, and ends normally. -/
theorem runLoop_complete (c : RunCfg)
    (hcancel : ∀ k, c.cancelAt k = false) :
    ∀ (frames : List Frame) (done : Nat),
      (∀ raw ∈ frames, (compositeOf c raw).isSome) →
        (runLoop c frames.length frames done).srWrites = frames.map c.transform ∧
        (runLoop c frames.length frames done).compareWrites.map some =
          frames.map (compositeOf c) ∧
        (runLoop c frames.length frames done).outcome = .done := by
  intro frames
  induction frames with
  | nil =>
      intro done _
      simp [runLoop]
  | cons raw rest ih =>
      intro done hcomp
      have h1 : (compositeOf c raw).isSome := hcomp raw (by simp)
      rcases hcmp : compositeOf c raw with _ | cmp
      · rw [hcmp] at h1
        simp at h1
      · obtain ⟨ihs, ihc, iho⟩ := ih (done + 1) (fun r hr => hcomp r (by simp [hr]))
        rw [show (raw :: rest).length = rest.length + 1 from rfl, runLoop]
        rw [show compositeFrame c.srW c.srH raw (c.transform raw) = compositeOf c raw
              from rfl, hcmp]
        by_cases hview : c.view <;> simp [hview, hcancel, ihs, ihc, iho, hcmp]

/-- If the poll first observes a cancel after frame `k` has been fully
written, the loop stops in `cancelled` having written exactly `k - done`
more frames to each sink. -/
theorem runLoop_cancelled (c : RunCfg) (k : Nat) (hview : c.view = true)
    (hk : c.cancelAt k = true) :
    ∀ (frames : List Frame) (done : Nat),
      (∀ raw ∈ frames, (compositeOf c raw).isSome) →
      done < k → k ≤ done + frames.length →
      (∀ j, done < j → j < k → c.cancelAt j = false) →
        (runLoop c frames.length frames done).srWrites.length = k - done ∧
        (runLoop c frames.length frames done).compareWrites.length = k - done ∧
        (runLoop c frames.length frames done).outcome = .cancelled := by
  intro frames
  induction frames with
  | nil =>
      intro done _ h1 h2 _
      simp at h2
      omega
  | cons raw rest ih =>
      intro done hcomp h1 h2 hquiet
      have hc1 : (compositeOf c raw).isSome := hcomp raw (by simp)
      rcases hcmp : compositeOf c raw with _ | cmp
      · rw [hcmp] at hc1
        simp at hc1
      · rw [show (raw :: rest).length = rest.length + 1 from rfl, runLoop]
        rw [show compositeFrame c.srW c.srH raw (c.transform raw) = compositeOf c raw
              from rfl, hcmp]
        by_cases hstop : done + 1 = k
        · simp [hview, hstop, hk]
          omega
        · have hfalse : c.cancelAt (done + 1) = false :=
            hquiet (done + 1) (by omega) (by omega)
          obtain ⟨ihs, ihc, iho⟩ := ih (done + 1)
            (fun r hr => hcomp r (by simp [hr])) (by omega)
            (by simp at h2; omega)
            (fun j hj1 hj2 => hquiet j (by omega) hj2)
          simp [hview, hfalse, ihs, ihc, iho]
          omega

/-- Prefix-count step: prepending one sr write, one comparison write and
then only neutral events preserves "comparison writes never outnumber sr
writes in any prefix". -/
theorem count_take_block (mid t : List Ev)
    (hmid : ∀ e ∈ mid, e ≠ Ev.writeSr ∧ e ≠ Ev.writeCompare)
    (ht : ∀ n, ((t.take n).count Ev.writeCompare) ≤ (t.take n).count Ev.writeSr) :
    ∀ n, (((Ev.writeSr :: Ev.writeCompare :: (mid ++ t)).take n).count Ev.writeCompare) ≤
      ((Ev.writeSr :: Ev.writeCompare :: (mid ++ t)).take n).count Ev.writeSr := by
  intro n
  match n with
  | 0 => simp
  | 1 => simp
  | n + 2 =>
      simp only [List.take_succ_cons, List.count_cons]
      rw [List.take_append_eq_append_take]
      simp only [List.count_append]
      have hc : ((mid.take n).count Ev.writeCompare) = 0 :=
        List.count_eq_zero.2 (fun h => (hmid _ (List.mem_of_mem_take h)).2 rfl)
      have hs : ((mid.take n).count Ev.writeSr) = 0 :=
        List.count_eq_zero.2 (fun h => (hmid _ (List.mem_of_mem_take h)).1 rfl)
      have hb1 : (Ev.writeSr == Ev.writeCompare) = false := rfl
      have hb2 : (Ev.writeCompare == Ev.writeSr) = false := rfl
      have hb3 : (Ev.writeCompare == Ev.writeCompare) = true := rfl
      have hb4 : (Ev.writeSr == Ev.writeSr) = true := rfl
      simp only [hb1, hb2, hb3, hb4, if_true, if_false]
      have := ht (n - mid.length)
      omega

/-- The sink write counts the loop leaves behind: equal on every
non-failing outcome, and the sr sink one ahead exactly when the run
failed (the sr write precedes the compositing and the comparison
write); moreover in every prefix of the trace the comparison writes
never outnumber the sr writes. -/
theorem runLoop_balanced (c : RunCfg) :
    ∀ (fuel : Nat) (frames : List Frame) (done : Nat),
      ((runLoop c fuel frames done).srWrites.length =
        if (runLoop c fuel frames done).outcome = .failed
        then (runLoop c fuel frames done).compareWrites.length + 1
        else (runLoop c fuel frames done).compareWrites.length) ∧
      (∀ n, (((runLoop c fuel frames done).trace.take n).count Ev.writeCompare) ≤
        ((runLoop c fuel frames done).trace.take n).count Ev.writeSr) := by
  intro fuel
  induction fuel with
  | zero =>
      intro frames done
      simp [runLoop]
  | succ fuel ih =>
      intro frames done
      cases frames with
      | nil => simp [runLoop]
      | cons raw rest =>
          rw [runLoop]
          rcases hcmp : compositeFrame c.srW c.srH raw (c.transform raw) with _ | cmp
          · refine ⟨by simp, ?_⟩
            intro n
            match n with
            | 0 => simp
            | n + 1 => simp
          · obtain ⟨ih1, ih2⟩ := ih rest (done + 1)
            by_cases hview : c.view <;> simp only [hview, if_true, if_false, Bool.false_eq_true]
            · by_cases hcan : c.cancelAt (done + 1) <;>
                simp only [hcan, if_true, if_false, Bool.false_eq_true]
              · refine ⟨by simp, ?_⟩
                exact count_take_block [Ev.poll] [] (by simp) (by simp)
              · refine ⟨?_, count_take_block [Ev.poll, Ev.read] _ (by simp) ih2⟩
                simp only [List.length_cons]
                split <;> rename_i h <;> simp only [h, if_true, if_false] at ih1 <;> omega
            · refine ⟨?_, count_take_block [Ev.read] _ (by simp) ih2⟩
              simp only [List.length_cons]
              split <;> rename_i h <;> simp only [h, if_true, if_false] at ih1 <;> omega

/-- The only events that `Video.run` ever performs are reads, writes and the
interactive poll: in particular it never releases the capture or either
writer. -/
theorem runLoop_trace_events (c : RunCfg) :
    ∀ (fuel : Nat) (frames : List Frame) (done : Nat) (e : Ev),
      e ∈ (runLoop c fuel frames done).trace →
        e = .read ∨ e = .writeSr ∨ e = .writeCompare ∨ e = .poll := by
  intro fuel
  induction fuel with
  | zero =>
      intro frames done e he
      simp [runLoop] at he
  | succ fuel ih =>
      intro frames done e he
      cases frames with
      | nil => simp [runLoop] at he
      | cons raw rest =>
          rw [runLoop] at he
          rcases hcmp : compositeFrame c.srW c.srH raw (c.transform raw) with _ | cmp <;>
            rw [hcmp] at he
          · simp at he
            simp [he]
          · by_cases hview : c.view <;> simp [hview] at he
            · by_cases hcan : c.cancelAt (done + 1) <;> simp [hcan] at he
              · rcases he with he | he | he <;> simp [he]
              · rcases he with he | he | he | he | he <;> try simp [he]
                exact ih rest (done + 1) e he
            · rcases he with he | he | he | he <;> try simp [he]
              exact ih rest (done + 1) e he

/-- Prepending an event that is neither `a` nor `b` preserves
"`b`-events never outnumber `a`-events in any prefix". -/
theorem count_take_cons_neutral (a b e : Ev) (hea : e ≠ a) (heb : e ≠ b)
    (t : List Ev)
    (ht : ∀ n, ((t.take n).count b) ≤ (t.take n).count a) :
    ∀ n, (((e :: t).take n).count b) ≤ ((e :: t).take n).count a := by
  intro n
  match n with
  | 0 => simp
  | n + 1 =>
      simp only [List.take_succ_cons, List.count_cons]
      have h1 : (b == e) = false := beq_eq_false_iff_ne.2 (Ne.symm heb)
      have h2 : (a == e) = false := beq_eq_false_iff_ne.2 (Ne.symm hea)
      have h3 : (e == b) = false := beq_eq_false_iff_ne.2 heb
      have h4 : (e == a) = false := beq_eq_false_iff_ne.2 hea
      simp only [h1, h2, h3, h4, if_false]
      have := ht n
      omega

/-- Prepending an `a`-event preserves "`b`-events never outnumber
`a`-events in any prefix". -/
theorem count_take_cons_hi (a b : Ev) (hab : b ≠ a) (t : List Ev)
    (ht : ∀ n, ((t.take n).count b) ≤ (t.take n).count a) :
    ∀ n, (((a :: t).take n).count b) ≤ ((a :: t).take n).count a := by
  intro n
  match n with
  | 0 => simp
  | n + 1 =>
      simp only [List.take_succ_cons, List.count_cons]
      have h1 : (b == a) = false := beq_eq_false_iff_ne.2 hab
      have h2 : (a == a) = true := beq_self_eq_true a
      have h3 : (a == b) = false := beq_eq_false_iff_ne.2 (Ne.symm hab)
      simp only [h1, h2, h3, Bool.false_eq_true, if_false, if_true]
      have := ht n
      omega

/-- Generic prefix-count step: an `a`-event, then a `b`-event, then only
events that are neither, preserve the prefix-count inequality. -/
theorem count_take_block_gen (a b : Ev) (hab : a ≠ b) (mid t : List Ev)
    (hmid : ∀ e ∈ mid, e ≠ a ∧ e ≠ b)
    (ht : ∀ n, ((t.take n).count b) ≤ (t.take n).count a) :
    ∀ n, (((a :: b :: mid ++ t).take n).count b) ≤
      ((a :: b :: mid ++ t).take n).count a := by
  intro n
  match n with
  | 0 => simp
  | 1 =>
      calc (((a :: b :: mid ++ t).take 1).count b) ≤ ((a :: b :: mid ++ t).take 1).length :=
            List.count_le_length _ _
      _ ≤ ((a :: b :: mid ++ t).take 1).count a := by simp
  | n + 2 =>
      have hsh : ((a :: b :: mid ++ t).take (n + 2)) = a :: b :: ((mid ++ t).take n) := rfl
      rw [hsh]
      simp only [List.count_cons]
      rw [List.take_append_eq_append_take]
      simp only [List.count_append]
      have hcb : ((mid.take n).count b) = 0 :=
        List.count_eq_zero.2 (fun h => (hmid _ (List.mem_of_mem_take h)).2 rfl)
      have hca : ((mid.take n).count a) = 0 :=
        List.count_eq_zero.2 (fun h => (hmid _ (List.mem_of_mem_take h)).1 rfl)
      have h1 : (b == a) = false := beq_eq_false_iff_ne.2 (Ne.symm hab)
      have h2 : (a == b) = false := beq_eq_false_iff_ne.2 hab
      have h3 : (b == b) = true := beq_self_eq_true b
      have h4 : (a == a) = true := beq_self_eq_true a
      simp only [h1, h2, h3, h4, Bool.false_eq_true, if_true, if_false]
      have := ht (n - mid.length)
      omega

/-- In every prefix of the loop trace the polls never outnumber the
comparison writes: the cancellation poll of a frame happens only after
both writes of that frame, at most once per frame. -/
theorem runLoop_poll_le (c : RunCfg) :
    ∀ (fuel : Nat) (frames : List Frame) (done : Nat) (n : Nat),
      (((runLoop c fuel frames done).trace.take n).count Ev.poll) ≤
        ((runLoop c fuel frames done).trace.take n).count Ev.writeCompare := by
  intro fuel
  induction fuel with
  | zero =>
      intro frames done n
      simp [runLoop]
  | succ fuel ih =>
      intro frames done
      cases frames with
      | nil => intro n; simp [runLoop]
      | cons raw rest =>
          rw [runLoop]
          rcases hcmp : compositeFrame c.srW c.srH raw (c.transform raw) with _ | cmp
          · intro n
            match n with
            | 0 => simp
            | n + 1 => simp
          · by_cases hview : c.view <;> simp only [hview, if_true, if_false, Bool.false_eq_true]
            · by_cases hcan : c.cancelAt (done + 1) <;>
                simp only [hcan, if_true, if_false, Bool.false_eq_true]
              · exact count_take_cons_neutral _ _ _ (by simp) (by simp) _
                  (count_take_block_gen Ev.writeCompare Ev.poll (by simp) [] []
                    (by simp) (by simp))
              · exact count_take_cons_neutral _ _ _ (by simp) (by simp) _
                  (count_take_block_gen Ev.writeCompare Ev.poll (by simp) [Ev.read] _
                    (by simp) (ih rest (done + 1)))
            · exact count_take_cons_neutral _ _ _ (by simp) (by simp) _
                (count_take_cons_hi Ev.writeCompare Ev.poll (by simp) _
                  (count_take_cons_neutral _ _ _ (by simp) (by simp) _
                    (ih rest (done + 1))))

/-- With a transformed frame narrower than 45 pixels the crop tile side
`width // 5 - 9` is negative, and the very first compositing step fails
(the inverted PIL crop box). -/
theorem compositeFrame_none_of_small (srW srH : Nat) (raw sr : Frame)
    (h : sr.width < 45) : compositeFrame srW srH raw sr = none := by
  have hfc : fiveCrop sr (cropTile sr.width) = none := by
    unfold fiveCrop
    rw [if_neg]
    rintro ⟨h1, -⟩
    rw [cropTile_eq] at h1
    omega
  unfold compositeFrame
  rw [hfc]
  rfl

/-- Bound used for five-crop success: the crop tile side never exceeds
the frame width. -/
theorem cropTile_le_width (w : Nat) : cropTile w ≤ (w : Int) := by
  unfold cropTile
  omega

/-- Five-crop succeeds exactly when the guard holds, returning the five
corner and centre tiles. -/
theorem fiveCrop_eq_some_of (f : Frame) (c : Int)
    (h : 0 ≤ c ∧ c ≤ (f.width : Int) ∧ c ≤ (f.height : Int)) :
    fiveCrop f c =
      some [f.crop 0 0 c.toNat c.toNat,
            f.crop 0 (f.width - c.toNat) c.toNat c.toNat,
            f.crop (f.height - c.toNat) 0 c.toNat c.toNat,
            f.crop (f.height - c.toNat) (f.width - c.toNat) c.toNat c.toNat,
            f.crop (halfRound (f.height - c.toNat)) (halfRound (f.width - c.toNat))
              c.toNat c.toNat] := by
  unfold fiveCrop
  rw [if_pos h]

/-- When the crop tile side is non-negative and fits the frame height,
every compositing step succeeds — in particular a tile size of zero
composes fine, matching the real behaviour of torchvision zero-area
crops. -/
theorem compositeFrame_isSome (srW srH : Nat) (raw sr : Frame)
    (hw : sr.width = srW) (hh : sr.height = srH)
    (hc0 : 0 ≤ cropTile srW) (hch : cropTile srW ≤ (srH : Int)) :
    (compositeFrame srW srH raw sr).isSome = true := by
  subst hw
  subst hh
  have hg : 0 ≤ cropTile sr.width ∧ cropTile sr.width ≤ (sr.width : Int) ∧
      cropTile sr.width ≤ (sr.height : Int) :=
    ⟨hc0, cropTile_le_width _, hch⟩
  unfold compositeFrame
  rw [fiveCrop_eq_some_of sr (cropTile sr.width) hg]
  simp only [bind, Option.bind]
  rw [fiveCrop_eq_some_of (raw.resize sr.height sr.width)
    (cropTile (raw.resize sr.height sr.width).width) hg]
  simp [hconcat, hconcatList, List.foldlM, vconcat]

/-- The behaviour of the loop depends only on the geometry, the transform,
the view flag and the poll oracle — not on the frame rate or the sink
names. -/
theorem runLoop_congr (c₁ c₂ : RunCfg) (ht : c₁.transform = c₂.transform)
    (hw : c₁.srW = c₂.srW) (hh : c₁.srH = c₂.srH) (hv : c₁.view = c₂.view)
    (hc : c₁.cancelAt = c₂.cancelAt) :
    ∀ (fuel : Nat) (frames : List Frame) (done : Nat),
      runLoop c₁ fuel frames done = runLoop c₂ fuel frames done := by
  intro fuel
  induction fuel with
  | zero => intro frames done; rfl
  | succ fuel ih =>
      intro frames done
      cases frames with
      | nil => rfl
      | cons raw rest =>
          rw [runLoop, runLoop, ht, hw, hh, hv, hc, ih rest (done + 1)]

/-! ## Projections of `run` -/

theorem run_srWrites (c : RunCfg) :
    (run c).srWrites = (runLoop c c.totalFrames c.frames 0).srWrites := rfl

theorem run_compareWrites (c : RunCfg) :
    (run c).compareWrites = (runLoop c c.totalFrames c.frames 0).compareWrites := rfl

theorem run_outcome (c : RunCfg) :
    (run c).outcome = (runLoop c c.totalFrames c.frames 0).outcome := rfl

theorem run_trace (c : RunCfg) :
    (run c).trace = .read :: (runLoop c c.totalFrames c.frames 0).trace := rfl

/-! ## The claims -/

/-- C1: for every opened source stream with frame size
`(frameWidth, frameHeight)` and positive integer `upscaleFactor`, the
geometry derived at initialization satisfies
`srSize = (frameWidth * upscaleFactor, frameHeight * upscaleFactor)`,
`compareSize.width = srSize.width * 2 + 10` and
`compareSize.height = srSize.height + 10 + (srSize.width / 5 - 9)`
(integer division), computed once from the stream metadata. -/
theorem C1_derived_geometry (args : Args) (cap : Capture) (st : VideoState)
    (h : videoInit args cap = .ok st) (hu : 0 < args.upscale_factor) :
    st.srSize = (cap.frame_width * args.upscale_factor,
      cap.frame_height * args.upscale_factor) ∧
    st.pareSize.1 = (st.srSize.1 : Int) * 2 + 10 ∧
    st.pareSize.2 = (st.srSize.2 : Int) + 10 + ((st.srSize.1 : Int) / 5 - 9) := by
  rcases hsf : args.scale_factor with _ | sf
  · simp only [videoInit, hsf] at h
    exact Except.noConfusion h
  · simp only [videoInit, hsf] at h
    cases h
    refine ⟨rfl, rfl, ?_⟩
    show (pare_size (sr_size (cap.frame_width, cap.frame_height) args.upscale_factor)).2 = _
    unfold pare_size sr_size
    dsimp only
    generalize cap.frame_width * args.upscale_factor = wN
    generalize cap.frame_height * args.upscale_factor = hN
    omega

/-- C1 witness: a 64 × 64 source at upscale factor 4 yields
`srSize = (256, 256)` and `compareSize = (522, 308)`. -/
theorem C1_derived_geometry_witness :
    videoInit args4 cap64 = .ok st64 ∧ 0 < args4.upscale_factor ∧
    st64.srSize = (cap64.frame_width * args4.upscale_factor,
      cap64.frame_height * args4.upscale_factor) ∧
    st64.pareSize.1 = (st64.srSize.1 : Int) * 2 + 10 ∧
    st64.pareSize.2 = (st64.srSize.2 : Int) + 10 + ((st64.srSize.1 : Int) / 5 - 9) :=
  ⟨rfl, by decide,
   (C1_derived_geometry args4 cap64 st64 rfl (by decide)).1,
   (C1_derived_geometry args4 cap64 st64 rfl (by decide)).2.1,
   (C1_derived_geometry args4 cap64 st64 rfl (by decide)).2.2⟩

/-- C2: in a run whose transform outputs frames of size `srSize` and
whose `cropTileSize` is positive, every frame written to the upscaled
sink has dimensions exactly `srSize` and every comparison frame written
to the comparison sink has dimensions exactly `compareSize`. -/
theorem C2_output_dimensions (c : RunCfg)
    (ht : ∀ g, (c.transform g).width = c.srW ∧ (c.transform g).height = c.srH)
    (hcrop : 0 < cropTile c.srW) :
    (∀ f ∈ (run c).srWrites, f.width = c.srW ∧ f.height = c.srH) ∧
    (∀ f ∈ (run c).compareWrites,
      (f.width : Int) = (pare_size (c.srW, c.srH)).1 ∧
      (f.height : Int) = (pare_size (c.srW, c.srH)).2) := by
  constructor
  · intro f hf
    rw [run_srWrites] at hf
    obtain ⟨raw, -, hfe⟩ := runLoop_srWrites_mem c c.totalFrames c.frames 0 f hf
    rw [hfe]
    exact ht raw
  · intro f hf
    rw [run_compareWrites] at hf
    obtain ⟨raw, -, hfe⟩ := runLoop_compareWrites_mem c c.totalFrames c.frames 0 f hf
    exact compositeFrame_some_dims (ht raw).1 hfe

/-- C2 witness: the concrete one-frame run at `srSize = (50, 50)`. -/
theorem C2_output_dimensions_witness :
    (∀ g : Frame, (cfgGood.transform g).width = cfgGood.srW ∧
      (cfgGood.transform g).height = cfgGood.srH) ∧
    0 < cropTile cfgGood.srW ∧
    ((∀ f ∈ (run cfgGood).srWrites, f.width = cfgGood.srW ∧ f.height = cfgGood.srH) ∧
     (∀ f ∈ (run cfgGood).compareWrites,
       (f.width : Int) = (pare_size (cfgGood.srW, cfgGood.srH)).1 ∧
       (f.height : Int) = (pare_size (cfgGood.srW, cfgGood.srH)).2)) :=
  ⟨fun _ => ⟨rfl, rfl⟩, by decide,
   C2_output_dimensions cfgGood (fun _ => ⟨rfl, rfl⟩) (by decide)⟩

/-- C3 counterexample: with `srSize = (40, 40)` — so `cropTileSize = -1`
is not positive and `srSize.width < 45` — initialization succeeds
rather than failing, and the run still reads, transforms and writes the
first frame to the upscaled sink before anything fails; no failure
happens at initialization. -/
theorem C3_counterexample :
    cropTile (sr_size (10, 10) 4).1 < 0 ∧
    (videoInit args4 cap10).toOption.isSome = true ∧
    (run cfgSmall).trace = [.read, .writeSr] ∧
    (run cfgSmall).srWrites.length = 1 ∧
    (run cfgSmall).outcome = .failed := by
  refine ⟨by decide, rfl, by decide, by decide, by decide⟩

/-- C3 (amended): initialization performs no validation at all — it
succeeds whenever the `scale_factor` attribute exists, whatever the
geometry or the capture metadata; a source reporting zero frames
yields a run that completes normally having written nothing; when
`cropTileSize < 0` (equivalently `srSize.width < 45`) the failure
happens during the compositing of the first frame, after that frame
has already been read, transformed and written to the upscaled sink;
and when `cropTileSize = 0` (`srSize.width` between 45 and 49) nothing
fails at all: the zero-area five-crop succeeds and a run whose
transform emits `srSize` frames completes with every frame written to
both sinks. -/
theorem C3_no_init_validation (args : Args) (cap : Capture) (sf : Nat)
    (hsf : args.scale_factor = some sf)
    (c₀ : RunCfg) (h₀ : c₀.frames = [])
    (c : RunCfg) (raw : Frame) (rest : List Frame)
    (hfr : c.frames = raw :: rest) (htf : 0 < c.totalFrames)
    (htw : (c.transform raw).width = c.srW) (hcrop : cropTile c.srW < 0)
    (c₁ : RunCfg)
    (ht₁ : ∀ g, (c₁.transform g).width = c₁.srW ∧ (c₁.transform g).height = c₁.srH)
    (hc₁ : cropTile c₁.srW = 0)
    (hN₁ : c₁.totalFrames = c₁.frames.length)
    (hcan₁ : ∀ k, c₁.cancelAt k = false) :
    (videoInit args cap).toOption.isSome = true ∧
    ((run c₀).srWrites = [] ∧ (run c₀).compareWrites = [] ∧
      (run c₀).outcome = .done) ∧
    ((run c).srWrites = [c.transform raw] ∧ (run c).compareWrites = [] ∧
      (run c).outcome = .failed ∧ (run c).trace = [.read, .writeSr]) ∧
    ((run c₁).outcome = .done ∧
      (run c₁).srWrites.length = c₁.frames.length ∧
      (run c₁).compareWrites.length = c₁.frames.length) := by
  refine ⟨?_, ?_, ?_, ?_⟩
  · simp only [videoInit, hsf]
    rfl
  · have hempty : ∀ tf done, runLoop c₀ tf [] done = ⟨[], [], [], .done⟩ := by
      intro tf done
      cases tf <;> rfl
    rw [run_srWrites, run_compareWrites, run_outcome, h₀, hempty]
    exact ⟨rfl, rfl, rfl⟩
  · obtain ⟨tf, htf'⟩ : ∃ tf, c.totalFrames = tf + 1 :=
      ⟨c.totalFrames - 1, by omega⟩
    have hwlt : (c.transform raw).width < 45 := by
      rw [htw]
      rw [cropTile_eq] at hcrop
      omega
    have hnone : compositeFrame c.srW c.srH raw (c.transform raw) = none :=
      compositeFrame_none_of_small c.srW c.srH raw (c.transform raw) hwlt
    rw [run_srWrites, run_compareWrites, run_outcome, run_trace, hfr, htf',
      runLoop, hnone]
    exact ⟨rfl, rfl, rfl, rfl⟩
  · have hcomp₁ : ∀ g ∈ c₁.frames, (compositeOf c₁ g).isSome := fun g _ =>
      compositeFrame_isSome c₁.srW c₁.srH g (c₁.transform g)
        (ht₁ g).1 (ht₁ g).2 (by rw [hc₁]) (by rw [hc₁]; exact Int.ofNat_nonneg _)
    obtain ⟨h1, h2, h3⟩ := runLoop_complete c₁ hcan₁ c₁.frames 0 hcomp₁
    refine ⟨?_, ?_, ?_⟩
    · rw [run_outcome, hN₁, h3]
    · rw [run_srWrites, hN₁, h1, List.length_map]
    · have := congrArg List.length h2
      rw [List.length_map, List.length_map] at this
      rw [run_compareWrites, hN₁, this]

/-- C3 witness: the degenerate configuration `cfgSmall` (tile −1), the
zero-frame configuration `cfgEmpty`, the zero-tile configuration
`cfgZero` (tile 0, which completes) and `videoInit args4 cap10`. -/
theorem C3_no_init_validation_witness :
    args4.scale_factor = some 4 ∧ cfgEmpty.frames = [] ∧
    cfgSmall.frames = frame50 :: [] ∧ 0 < cfgSmall.totalFrames ∧
    (cfgSmall.transform frame50).width = cfgSmall.srW ∧
    cropTile cfgSmall.srW < 0 ∧ cropTile cfgZero.srW = 0 ∧
    ((videoInit args4 cap10).toOption.isSome = true ∧
     ((run cfgEmpty).srWrites = [] ∧ (run cfgEmpty).compareWrites = [] ∧
       (run cfgEmpty).outcome = .done) ∧
     ((run cfgSmall).srWrites = [cfgSmall.transform frame50] ∧
       (run cfgSmall).compareWrites = [] ∧
       (run cfgSmall).outcome = .failed ∧
       (run cfgSmall).trace = [.read, .writeSr]) ∧
     ((run cfgZero).outcome = .done ∧
       (run cfgZero).srWrites.length = cfgZero.frames.length ∧
       (run cfgZero).compareWrites.length = cfgZero.frames.length)) :=
  ⟨rfl, rfl, rfl, by decide, rfl, by decide, by decide,
   C3_no_init_validation args4 cap10 4 rfl cfgEmpty rfl cfgSmall frame50 []
     rfl (by decide) rfl (by decide) cfgZero (fun _ => ⟨rfl, rfl⟩) (by decide)
     rfl (fun _ => rfl)⟩

/-- C4 counterexample: at `srSize = (50, 50)` the construction the claim
describes produces a 115-pixel-wide comparison frame while the code
produces a 110-pixel-wide one (the pad margins of the claim belong to the
detail tiles, not the full frames); moreover the detail tiles of the claim,
taken from the *padded* reference frame, differ in content from the
tiles of the code, which are taken before padding (the top-right,
bottom-left and bottom-right tiles of the padded frame read the zero
padding). -/
theorem C4_counterexample :
    (compositeClaim 50 50 frame50 sr50).map Frame.width = some 115 ∧
    (compositeFrame 50 50 frame50 sr50).map Frame.width = some 110 ∧
    (fiveCrop ((frame50.resize 50 50).pad 0 0 5 5) (cropTile 50)).map
        (fun l => l.map (fun fr => fr.pix 0 0)) = some [1, 0, 0, 0, 2728] ∧
    (fiveCrop (frame50.resize 50 50) (cropTile 50)).map
        (fun l => l.map (fun fr => fr.pix 0 0)) = some [1, 50, 4901, 4950, 2425] := by
  refine ⟨by decide, by decide, by decide, by decide⟩

/-- C4 (amended): per processed frame the code pads the *transformed*
frame by `(5,0,0,5)` (left 5, bottom 5) and the *reference* frame by
`(0,0,5,5)` (right 5, bottom 5) and concatenates them reference first;
the ten detail tiles are extracted from the frames *before* those
full-frame pads, the transformed-frame tiles padded `(10,5,0,0)`
(left 10, top 5) and the reference tiles `(0,5,10,0)` (top 5, right 10),
and the bottom strip concatenates the five reference tiles before the
five transformed tiles. -/
theorem C4_compositor_description (srW srH : Nat) (raw sr : Frame) :
    compositeFrame srW srH raw sr = compositeDescribed srW srH raw sr := rfl

/-- C5 counterexample: a run that terminates normally (`done`) in which
the capture and the two writers were each released zero times, not
exactly once — `Video.run` contains no release/close calls. -/
theorem C5_counterexample :
    (run cfgGood).outcome = .done ∧
    ¬((run cfgGood).trace.count Ev.releaseCapture = 1) ∧
    ¬((run cfgGood).trace.count Ev.releaseSrWriter = 1) ∧
    ¬((run cfgGood).trace.count Ev.releaseCompareWriter = 1) := by
  refine ⟨by decide, by decide, by decide, by decide⟩

/-- C5 (amended): on every terminal outcome `Video.run` never releases
or closes the VideoSource handle or either VideoSink handle — no
release happens at all; finalization is left to interpreter teardown. -/
theorem C5_no_release (c : RunCfg) :
    (run c).trace.count Ev.releaseCapture = 0 ∧
    (run c).trace.count Ev.releaseSrWriter = 0 ∧
    (run c).trace.count Ev.releaseCompareWriter = 0 := by
  have key : ∀ e : Ev, e ≠ .read → e ≠ .writeSr → e ≠ .writeCompare → e ≠ .poll →
      (run c).trace.count e = 0 := by
    intro e h1 h2 h3 h4
    apply List.count_eq_zero.2
    intro hmem
    rw [run_trace] at hmem
    rcases List.mem_cons.1 hmem with h | h
    · exact h1 h
    · rcases runLoop_trace_events c c.totalFrames c.frames 0 e h with h' | h' | h' | h'
      · exact h1 h'
      · exact h2 h'
      · exact h3 h'
      · exact h4 h'
  exact ⟨key _ (by decide) (by decide) (by decide) (by decide),
         key _ (by decide) (by decide) (by decide) (by decide),
         key _ (by decide) (by decide) (by decide) (by decide)⟩

/-- C6: when the `N` frames of the source are all read and processed without
cancellation or failure, both sinks receive exactly `N` frames, in
source order (the upscaled sink gets the transforms of the source
frames, the comparison sink their composites, in the same order). -/
theorem C6_all_frames_written (c : RunCfg) (N : Nat)
    (hN : c.frames.length = N) (htf : c.totalFrames = N)
    (hcomp : ∀ raw ∈ c.frames, (compositeOf c raw).isSome)
    (hcancel : ∀ k, c.cancelAt k = false) :
    (run c).srWrites = c.frames.map c.transform ∧
    (run c).compareWrites.map some = c.frames.map (compositeOf c) ∧
    (run c).srWrites.length = N ∧
    (run c).compareWrites.length = N ∧
    (run c).outcome = .done := by
  obtain ⟨h1, h2, h3⟩ := runLoop_complete c hcancel c.frames 0 hcomp
  have e1 : (run c).srWrites = (runLoop c c.frames.length c.frames 0).srWrites := by
    rw [run_srWrites, htf, ← hN]
  have e2 : (run c).compareWrites =
      (runLoop c c.frames.length c.frames 0).compareWrites := by
    rw [run_compareWrites, htf, ← hN]
  have e3 : (run c).outcome = (runLoop c c.frames.length c.frames 0).outcome := by
    rw [run_outcome, htf, ← hN]
  refine ⟨e1 ▸ h1, e2 ▸ h2, ?_, ?_, e3 ▸ h3⟩
  · rw [e1, h1, List.length_map, hN]
  · have := congrArg List.length (e2 ▸ h2)
    rw [List.length_map, List.length_map, hN] at this
    exact this

/-- C6 witness: the one-frame run `cfgGood`. -/
theorem C6_all_frames_written_witness :
    cfgGood.frames.length = 1 ∧ cfgGood.totalFrames = 1 ∧
    (∀ raw ∈ cfgGood.frames, (compositeOf cfgGood raw).isSome) ∧
    (∀ k, cfgGood.cancelAt k = false) ∧
    ((run cfgGood).srWrites = cfgGood.frames.map cfgGood.transform ∧
     (run cfgGood).compareWrites.map some = cfgGood.frames.map (compositeOf cfgGood) ∧
     (run cfgGood).srWrites.length = 1 ∧
     (run cfgGood).compareWrites.length = 1 ∧
     (run cfgGood).outcome = .done) :=
  ⟨rfl, rfl, by decide, fun _ => rfl,
   C6_all_frames_written cfgGood 1 rfl rfl (by decide) (fun _ => rfl)⟩

/-- C7: if, in an interactive run whose frames all composite
successfully, the poll observes the first cancel right after frame `k`
(`0 < k < N`) has been fully written, the run ends `cancelled` with
exactly `k` frames in each sink and no error; and in every prefix of
the event trace the polls never outnumber the comparison writes — the
poll happens at most once per completed frame, only after both writes
of that frame. -/
theorem C7_cancellation (c : RunCfg) (k N : Nat)
    (hview : c.view = true)
    (hN : c.frames.length = N) (htf : c.totalFrames = N)
    (hcomp : ∀ raw ∈ c.frames, (compositeOf c raw).isSome)
    (hk0 : 0 < k) (hkN : k < N)
    (hk : c.cancelAt k = true)
    (hquiet : ∀ j, 0 < j → j < k → c.cancelAt j = false) :
    (run c).srWrites.length = k ∧
    (run c).compareWrites.length = k ∧
    (run c).outcome = .cancelled ∧
    (∀ n, (((run c).trace.take n).count Ev.poll) ≤
      ((run c).trace.take n).count Ev.writeCompare) := by
  have hlen : k ≤ 0 + c.frames.length := by
    rw [hN]
    omega
  obtain ⟨h1, h2, h3⟩ := runLoop_cancelled c k hview hk c.frames 0 hcomp
    (by omega) hlen (fun j hj1 hj2 => hquiet j (by omega) hj2)
  refine ⟨?_, ?_, ?_, ?_⟩
  · rw [run_srWrites, htf, ← hN, h1]
    omega
  · rw [run_compareWrites, htf, ← hN, h2]
    omega
  · rw [run_outcome, htf, ← hN, h3]
  · rw [run_trace]
    exact count_take_cons_neutral Ev.writeCompare Ev.poll Ev.read
      (by decide) (by decide) _ (runLoop_poll_le c c.totalFrames c.frames 0)

/-- C7 witness: the interactive two-frame run `cfgView`, cancelled right
after the first frame. -/
theorem C7_cancellation_witness :
    cfgView.view = true ∧ cfgView.frames.length = 2 ∧ cfgView.totalFrames = 2 ∧
    (∀ raw ∈ cfgView.frames, (compositeOf cfgView raw).isSome) ∧
    0 < 1 ∧ 1 < 2 ∧ cfgView.cancelAt 1 = true ∧
    ((run cfgView).srWrites.length = 1 ∧
     (run cfgView).compareWrites.length = 1 ∧
     (run cfgView).outcome = .cancelled ∧
     (∀ n, (((run cfgView).trace.take n).count Ev.poll) ≤
       ((run cfgView).trace.take n).count Ev.writeCompare)) :=
  ⟨rfl, rfl, rfl, by decide, by decide, by decide, rfl,
   C7_cancellation cfgView 1 2 rfl rfl rfl (by decide) (by decide) (by decide)
     rfl (fun j hj1 hj2 => by omega)⟩

/-- C8: for a fixed source and a fixed deterministic transform, two
independent runs — even with different frame rates or output names —
produce identical frame sequences in the upscaled sink and identical
frame sequences in the comparison sink. -/
theorem C8_determinism (c₁ c₂ : RunCfg)
    (hf : c₁.frames = c₂.frames) (ht : c₁.transform = c₂.transform)
    (hw : c₁.srW = c₂.srW) (hh : c₁.srH = c₂.srH)
    (hv : c₁.view = c₂.view) (hc : c₁.cancelAt = c₂.cancelAt)
    (hn : c₁.totalFrames = c₂.totalFrames) :
    (run c₁).srWrites = (run c₂).srWrites ∧
    (run c₁).compareWrites = (run c₂).compareWrites := by
  have h := runLoop_congr c₁ c₂ ht hw hh hv hc
  constructor
  · rw [run_srWrites, run_srWrites, hn, hf, h]
  · rw [run_compareWrites, run_compareWrites, hn, hf, h]

/-- C8 witness: `cfgGood` and `cfgGood2` differ in frame rate and sink
names yet produce identical sink contents. -/
theorem C8_determinism_witness :
    cfgGood.frames = cfgGood2.frames ∧ cfgGood.fps ≠ cfgGood2.fps ∧
    cfgGood.srName ≠ cfgGood2.srName ∧
    ((run cfgGood).srWrites = (run cfgGood2).srWrites ∧
     (run cfgGood).compareWrites = (run cfgGood2).compareWrites) :=
  ⟨rfl, by decide, by decide,
   C8_determinism cfgGood cfgGood2 rfl rfl rfl rfl rfl rfl rfl⟩

/-- C9: the output files are *not* named with the upscale factor used to
compute `srSize`: `Video.__init__` interpolates `args.scale_factor`, an
attribute the CLI parsers of the repository never define.  With the
arguments the repository itself builds the constructor raises
`AttributeError`;
with a `scale_factor` differing from `upscale_factor` the names carry
the wrong factor.  The fourcc (`"MPEG"`) and the source frame rate are
as claimed. -/
theorem C9_naming_uses_scale_factor :
    videoInit argsRepo cap64 = .error .attributeError ∧
    (videoInit argsMismatch cap64).toOption.map (fun st => st.srName) =
      some "sr_2x_lr.mp4" ∧
    (videoInit argsMismatch cap64).toOption.map (fun st => st.srSize) =
      some (64 * 4, 64 * 4) ∧
    "sr_2x_lr.mp4" ≠
      "sr_" ++ toString argsMismatch.upscale_factor ++ "x_" ++
        baseName argsMismatch.file ∧
    (videoInit args4 cap64).toOption.map (fun st => (st.fourcc, st.fps)) =
      some ("MPEG", 30) := by
  refine ⟨rfl, rfl, rfl, by decide, rfl⟩

/-- C10: the upscaled sink leads the comparison sink by exactly one
frame when the run fails (the upscaled write precedes compositing and
the comparison write) and the two sinks hold equal counts on every
other outcome; in every prefix of the trace the comparison writes never
outnumber the upscaled writes. -/
theorem C10_sink_balance (c : RunCfg) :
    ((run c).srWrites.length =
      if (run c).outcome = .failed
      then (run c).compareWrites.length + 1
      else (run c).compareWrites.length) ∧
    (∀ n, (((run c).trace.take n).count Ev.writeCompare) ≤
      ((run c).trace.take n).count Ev.writeSr) := by
  obtain ⟨h1, h2⟩ := runLoop_balanced c c.totalFrames c.frames 0
  constructor
  · rw [run_srWrites, run_compareWrites, run_outcome]
    exact h1
  · rw [run_trace]
    exact count_take_cons_neutral Ev.writeSr Ev.writeCompare Ev.read
      (by decide) (by decide) _ h2

end SSRGAN
